import Mathlib

/-!
Verification of the instrument reference-data cache and broker glue of the
algo-angel-code repository (`src/utils/upstoxInstrument.util.js` and
`src/services/upstox.service.js`), as a shallow embedding in Lean 4.

Modelling conventions:
* JavaScript strings are `String`; the JS `<` comparison on strings
  (lexicographic, code-unit by code-unit) is embedded as the structurally
  recursive `strLt`; JS `toUpperCase` is embedded as `jsToUpper`
  (character-wise upper-casing).
* A possibly-absent (`undefined`) field is an `Option`; the source's
  optional chaining (`instrument.asset_symbol?.toUpperCase()`) becomes a
  `match` that yields a non-match when the field is `none`.
* The module-level mutable `instrumentCache` variable (`null` before the
  first successful refresh) is threaded explicitly as a value of type
  `Option (List Instrument)`.
* The asynchronous download/decompress/parse pipeline of
  `downloadAndPopulateCache` is represented by its observable outcome: a
  fully parsed catalog on success, or one of the three failure kinds
  (network, decompression, parse).  The stream and `JSON.parse` machinery
  belongs to the JS runtime (axios, zlib, JSON), not to the repository;
  only the state effect of the repository code is modelled: the single
  assignment `instrumentCache = JSON.parse(data)` performed on success,
  and the rejection paths that leave the cache untouched.
-/

/-- Lexicographic comparison of character lists, one character at a time,
mirroring the JS `<` operator on strings (code-unit comparison; a strict
prefix is smaller than its extension). -/
def ltChars : List Char → List Char → Bool
  | _, [] => false
  | [], _ :: _ => true
  | a :: as, b :: bs => if a < b then true else if b < a then false else ltChars as bs

/-- The JS `<` operator applied to two strings, as used by the source on
`expiry` values (`current.expiry < earliest.expiry`). -/
def strLt (a b : String) : Bool := ltChars a.data b.data

/-- The JS `toUpperCase()` method: upper-case every character. -/
def jsToUpper (s : String) : String := String.mk (s.data.map Char.toUpper)

/-- One instrument record of the parsed catalog.  The fields the lookup
reads are modelled; `asset_symbol` and `instrument_type` may be absent
(the source guards them with optional chaining), `strike_price` may be
absent (a strict `===` against a number then fails), `expiry` is the
date string the source compares with `<`, and `instrument_key` stands for
the opaque passthrough payload of the record. -/
structure Instrument where
  asset_symbol : Option String
  strike_price : Option Int
  instrument_type : Option String
  expiry : String
  instrument_key : String
deriving DecidableEq

/-- The filter predicate of `getUpstoxOption`:
`instrument.asset_symbol?.toUpperCase() === assetSymbol.toUpperCase() &&
 instrument.strike_price === strikePrice &&
 instrument.instrument_type?.toUpperCase() === optionType.toUpperCase()`. -/
def instrumentMatches (inst : Instrument) (assetSymbol : String)
    (strikePrice : Int) (optionType : String) : Bool :=
  (match inst.asset_symbol with
    | some s => jsToUpper s == jsToUpper assetSymbol
    | none => false)
  && inst.strike_price == some strikePrice
  && (match inst.instrument_type with
    | some s => jsToUpper s == jsToUpper optionType
    | none => false)

/-- The `matchingInstruments` list of `getUpstoxOption`:
`instrumentCache.filter(...)`. -/
def matchingInstruments (catalog : List Instrument) (assetSymbol : String)
    (strikePrice : Int) (optionType : String) : List Instrument :=
  catalog.filter (fun inst => instrumentMatches inst assetSymbol strikePrice optionType)

/-- The `reduce` of `getUpstoxOption`:
`matchingInstruments.reduce((earliest, current) =>
   current.expiry < earliest.expiry ? current : earliest)`.
A JS `reduce` without an initial value folds from the left with the first
element as the initial accumulator. -/
def earliestInstrument (x : Instrument) (xs : List Instrument) : Instrument :=
  xs.foldl (fun earliest current =>
    if strLt current.expiry earliest.expiry then current else earliest) x

/-- `getUpstoxOption(assetSymbol, strikePrice, optionType)` from
`src/utils/upstoxInstrument.util.js`: returns `null` when the cache is
not populated, filters the cache, returns `null` on an empty filter
result, and otherwise the reduce's earliest-expiry record. -/
def getUpstoxOption (cache : Option (List Instrument)) (assetSymbol : String)
    (strikePrice : Int) (optionType : String) : Option Instrument :=
  match cache with
  | none => none
  | some catalog =>
    match matchingInstruments catalog assetSymbol strikePrice optionType with
    | [] => none
    | x :: xs => some (earliestInstrument x xs)

/-- Whether a call to `getUpstoxOption` emits the
`"Instrument cache is not populated"` `console.error`: exactly when the
cache is `null`.  This is the only behavioural difference between the
not-ready branch and an empty filter result. -/
def lookupLogsNotReady (cache : Option (List Instrument)) : Bool :=
  cache.isNone

/-- A call to `getUpstoxOption` with the module state passed explicitly:
the body only reads `instrumentCache` and never assigns it, so the call
returns its result together with the unchanged state. -/
def getUpstoxOptionCall (cache : Option (List Instrument)) (assetSymbol : String)
    (strikePrice : Int) (optionType : String) :
    Option Instrument × Option (List Instrument) :=
  (getUpstoxOption cache assetSymbol strikePrice optionType, cache)

/-- The three failure kinds of a refresh cycle: the axios request or
response stream failing, the gunzip stream failing, and `JSON.parse`
throwing. -/
inductive RefreshError where
  | network
  | decompression
  | parse
deriving DecidableEq

/-- The observable outcome of one refresh cycle's pipeline: a fully
parsed catalog, or a failure at one of the three stages. -/
inductive RefreshOutcome where
  | ok (catalog : List Instrument)
  | err (e : RefreshError)
deriving DecidableEq

/-- The state effect of `downloadAndPopulateCache` on `instrumentCache`:
on success the single assignment `instrumentCache = JSON.parse(data)`
replaces the cache with the new catalog; every rejection path (download
error, gunzip error, parse error) rejects the promise without touching
`instrumentCache`. -/
def downloadAndPopulateCache (cache : Option (List Instrument))
    (o : RefreshOutcome) : Option (List Instrument) :=
  match o with
  | .ok catalog => some catalog
  | .err _ => cache

/-- The state effect of `main()` on `instrumentCache`: when the cache is
already populated it is used as is and no download runs; otherwise
`downloadAndPopulateCache` runs and its rejection is swallowed by the
surrounding `try`/`catch`, which only logs.  In every case `main`
returns normally. -/
def mainStep (cache : Option (List Instrument)) (o : RefreshOutcome) :
    Option (List Instrument) :=
  match cache with
  | some _ => cache
  | none => downloadAndPopulateCache none o

/-- The state effect of one cron-triggered refresh: the callback runs
`downloadAndPopulateCache().catch(err => console.error(...))`, so a
rejection is consumed by the attached `catch` handler and the callback
returns normally. -/
def cronStep (cache : Option (List Instrument)) (o : RefreshOutcome) :
    Option (List Instrument) :=
  downloadAndPopulateCache cache o

/-- Scheduler-level state: the cache together with the number of
`downloadAndPopulateCache` calls whose promise is still pending. -/
structure SchedulerState where
  cache : Option (List Instrument)
  inFlight : Nat
deriving DecidableEq

/-- The cron callback (`cron.schedule("0 7 * * *", () => ...)`): it calls
`downloadAndPopulateCache()` unconditionally — the source has no guard on
a still-running previous cycle — so firing the trigger always starts one
more download, whatever is already in flight; the cache itself is not
touched by the trigger. -/
def cronTrigger (s : SchedulerState) : SchedulerState :=
  { cache := s.cache, inFlight := s.inFlight + 1 }

/-- Modelled from the spec: "among the filtered set, select the record
with the minimum `expiry`; if the filtered set is empty, return none",
with ties on the minimal expiry resolved by catalog order.  Rendered as:
the first record of the list whose expiry is less than or equal to every
expiry in the list. -/
def specSelect (l : List Instrument) : Option Instrument :=
  l.find? fun r => l.all fun y => ! strLt y.expiry r.expiry

/-- One open position as consumed by `getTodaysPnL`: only its parsed
`pnl` value matters (`parseFloat(pos.pnl || 0)`), modelled as the
rational the parse yields. -/
structure Position where
  pnl : Rat
deriving DecidableEq

/-- `getTodaysPnL` from `src/services/upstox.service.js`, over the
observable outcome of the positions request: a thrown request error is
caught and `0` returned; otherwise `response.data?.data || []` is taken
(`none` models an absent `data` field), an empty list yields `0`, and a
non-empty list yields the `reduce` sum of the `pnl` values. -/
def getTodaysPnL (result : Except String (Option (List Position))) : Rat :=
  match result with
  | .error _ => 0
  | .ok maybePositions =>
    let positions := maybePositions.getD []
    if positions.length = 0 then 0
    else positions.foldl (fun acc pos => acc + pos.pnl) 0

/-- A populated catalog record that does not match the query
`("NIFTY", 23300, "PE")` (wrong symbol); used to compare the no-match
result with the not-ready result. -/
def c2record : Instrument :=
  { asset_symbol := some "BANKNIFTY", strike_price := some 23300
    instrument_type := some "PE", expiry := "2025-01-02", instrument_key := "key1" }

/-- First record of the end-to-end scenario payload: NIFTY 23300 PE
expiring 2025-01-02, with an arbitrary opaque passthrough payload. -/
def c8record1 (k : String) : Instrument :=
  { asset_symbol := some "NIFTY", strike_price := some 23300
    instrument_type := some "PE", expiry := "2025-01-02", instrument_key := k }

/-- Second record of the end-to-end scenario payload: NIFTY 23300 PE
expiring 2025-01-09. -/
def c8record2 (k : String) : Instrument :=
  { asset_symbol := some "NIFTY", strike_price := some 23300
    instrument_type := some "PE", expiry := "2025-01-09", instrument_key := k }

/-- A record with an absent `asset_symbol` field, as can occur in the
upstream payload for non-derivative instruments. -/
def c9record : Instrument :=
  { asset_symbol := none, strike_price := some 23300
    instrument_type := some "PE", expiry := "2025-01-02", instrument_key := "key9" }

/-- Unfolding lemma for the reduce: folding over a cons first combines
the accumulator with the head. -/
theorem earliestInstrument_cons (x b : Instrument) (t : List Instrument) :
    earliestInstrument x (b :: t) =
      earliestInstrument (if strLt b.expiry x.expiry then b else x) t :=
  rfl

/-- The character-list comparison is irreflexive. -/
theorem ltChars_irrefl (l : List Char) : ltChars l l = false := by
  induction l with
  | nil => rfl
  | cons a t ih => simp [ltChars, lt_irrefl, ih]

/-- The character-list comparison is transitive. -/
theorem ltChars_trans : ∀ (a b c : List Char),
    ltChars a b = true → ltChars b c = true → ltChars a c = true := by
  intro a
  induction a with
  | nil =>
    intro b c hab hbc
    cases b with
    | nil => simp [ltChars] at hab
    | cons y ys =>
      cases c with
      | nil => simp [ltChars] at hbc
      | cons z zs => simp [ltChars]
  | cons x xs ih =>
    intro b c hab hbc
    cases b with
    | nil => simp [ltChars] at hab
    | cons y ys =>
      cases c with
      | nil => simp [ltChars] at hbc
      | cons z zs =>
        simp only [ltChars] at hab hbc ⊢
        by_cases hxy : x < y
        · by_cases hyz : y < z
          · simp [lt_trans hxy hyz]
          · by_cases hzy : z < y
            · simp [hyz, hzy] at hbc
            · have hyzeq : y = z := le_antisymm (not_lt.mp hzy) (not_lt.mp hyz)
              subst hyzeq
              simp [hxy]
        · by_cases hyx : y < x
          · simp [hxy, hyx] at hab
          · have hxyeq : x = y := le_antisymm (not_lt.mp hyx) (not_lt.mp hxy)
            subst hxyeq
            simp [lt_irrefl] at hab
            by_cases hxz : x < z
            · simp [hxz]
            · by_cases hzx : z < x
              · simp [hxz, hzx] at hbc
              · have hxzeq : x = z := le_antisymm (not_lt.mp hzx) (not_lt.mp hxz)
                subst hxzeq
                simp [lt_irrefl] at hbc
                simp [lt_irrefl, ih ys zs hab hbc]

/-- Two character lists neither of which is below the other are equal. -/
theorem ltChars_connex : ∀ (a b : List Char),
    ltChars a b = false → ltChars b a = false → a = b := by
  intro a
  induction a with
  | nil =>
    intro b h1 _
    cases b with
    | nil => rfl
    | cons y ys => simp [ltChars] at h1
  | cons x xs ih =>
    intro b h1 h2
    cases b with
    | nil => simp [ltChars] at h2
    | cons y ys =>
      simp only [ltChars] at h1 h2
      by_cases hxy : x < y
      · simp [hxy] at h1
      · by_cases hyx : y < x
        · simp [hyx, hxy] at h2
        · have hxyeq : x = y := le_antisymm (not_lt.mp hyx) (not_lt.mp hxy)
          subst hxyeq
          simp [lt_irrefl] at h1 h2
          rw [ih ys h1 h2]

/-- The embedded JS string comparison is irreflexive. -/
theorem strLt_irrefl (s : String) : strLt s s = false :=
  ltChars_irrefl s.data

/-- The embedded JS string comparison is transitive. -/
theorem strLt_trans {a b c : String} (h1 : strLt a b = true)
    (h2 : strLt b c = true) : strLt a c = true :=
  ltChars_trans a.data b.data c.data h1 h2

/-- Two strings neither of which is below the other are equal. -/
theorem strLt_connex {a b : String} (h1 : strLt a b = false)
    (h2 : strLt b a = false) : a = b := by
  cases a with
  | mk da =>
    cases b with
    | mk db => exact congrArg String.mk (ltChars_connex da db h1 h2)

/-- From `x ≥ b` and `b < r` conclude `x < r`. -/
theorem strLt_of_false_of_true {b x r : String} (h1 : strLt b x = false)
    (h2 : strLt b r = true) : strLt x r = true := by
  cases hxb : strLt x b with
  | true => exact strLt_trans hxb h2
  | false => rw [← strLt_connex h1 hxb]; exact h2

/-- From `r < x` and `x ≥ b` conclude `r < b`. -/
theorem strLt_of_true_of_false {r x b : String} (h1 : strLt r x = true)
    (h2 : strLt b x = false) : strLt r b = true := by
  cases hxb : strLt x b with
  | true => exact strLt_trans h1 hxb
  | false => rw [strLt_connex h2 hxb]; exact h1

/-- The reduce's result has an expiry at or below every expiry of the
list it scanned (accumulator included). -/
theorem earliestInstrument_minimal :
    ∀ (xs : List Instrument) (x y : Instrument), y ∈ x :: xs →
      strLt y.expiry (earliestInstrument x xs).expiry = false := by
  intro xs
  induction xs with
  | nil =>
    intro x y hy
    rw [List.mem_singleton.mp hy]
    exact strLt_irrefl _
  | cons b t ih =>
    intro x y hy
    rw [earliestInstrument_cons]
    cases hb : strLt b.expiry x.expiry with
    | true =>
      simp only [hb, if_true]
      rcases List.mem_cons.mp hy with rfl | hy'
      · cases hxr : strLt y.expiry (earliestInstrument b t).expiry with
        | false => rfl
        | true =>
          have hbr : strLt b.expiry (earliestInstrument b t).expiry = true :=
            strLt_trans hb hxr
          have hmin := ih b b (List.mem_cons_self b t)
          exact absurd (hmin.symm.trans hbr) (by decide)
      · exact ih b y hy'
    | false =>
      simp only [hb, Bool.false_eq_true, if_false]
      rcases List.mem_cons.mp hy with hyx | hy'
      · rw [hyx]
        exact ih x x (List.mem_cons_self x t)
      · rcases List.mem_cons.mp hy' with hyb | hy''
        · rw [hyb]
          cases hyr : strLt b.expiry (earliestInstrument x t).expiry with
          | false => rfl
          | true =>
            have hxr : strLt x.expiry (earliestInstrument x t).expiry = true :=
              strLt_of_false_of_true hb hyr
            have hmin := ih x x (List.mem_cons_self x t)
            exact absurd (hmin.symm.trans hxr) (by decide)
        · exact ih x y (List.mem_cons_of_mem x hy'')

/-- The reduce's result splits its scanned list into a prefix of records
with strictly larger expiry, the result itself, and a suffix: it is the
first record of the list achieving the minimal expiry. -/
theorem earliestInstrument_first :
    ∀ (xs : List Instrument) (x : Instrument),
      ∃ l₁ l₂, x :: xs = l₁ ++ (earliestInstrument x xs) :: l₂ ∧
        ∀ y ∈ l₁, strLt (earliestInstrument x xs).expiry y.expiry = true := by
  intro xs
  induction xs with
  | nil => intro x; exact ⟨[], [], rfl, by simp⟩
  | cons b t ih =>
    intro x
    rw [earliestInstrument_cons]
    cases hb : strLt b.expiry x.expiry with
    | true =>
      simp only [hb, if_true]
      obtain ⟨l₁, l₂, hsplit, hstrict⟩ := ih b
      refine ⟨x :: l₁, l₂, ?_, ?_⟩
      · rw [List.cons_append, ← hsplit]
      · intro y hy
        rcases List.mem_cons.mp hy with rfl | hy'
        · have hrb := earliestInstrument_minimal t b b (List.mem_cons_self b t)
          exact strLt_of_false_of_true hrb hb
        · exact hstrict y hy'
    | false =>
      simp only [hb, Bool.false_eq_true, if_false]
      obtain ⟨l₁, l₂, hsplit, hstrict⟩ := ih x
      cases l₁ with
      | nil =>
        simp only [List.nil_append, List.cons.injEq] at hsplit
        refine ⟨[], b :: t, ?_, by simp⟩
        rw [List.nil_append, ← hsplit.1]
      | cons z l₁' =>
        simp only [List.cons_append, List.cons.injEq] at hsplit
        obtain ⟨hz, ht⟩ := hsplit
        subst hz
        have hrx : strLt (earliestInstrument x t).expiry x.expiry = true :=
          hstrict x (List.mem_cons_self x l₁')
        refine ⟨x :: b :: l₁', l₂, ?_, ?_⟩
        · conv_lhs => rw [ht]
          rfl
        · intro y hy
          rcases List.mem_cons.mp hy with rfl | hy'
          · exact hrx
          · rcases List.mem_cons.mp hy' with rfl | hy''
            · exact strLt_of_true_of_false hrx hb
            · exact hstrict y (List.mem_cons_of_mem x hy'')

/-- The reduce's result is one of the scanned records. -/
theorem earliestInstrument_mem (x : Instrument) (xs : List Instrument) :
    earliestInstrument x xs ∈ x :: xs := by
  obtain ⟨l₁, l₂, hsplit, -⟩ := earliestInstrument_first xs x
  rw [hsplit]
  exact List.mem_append.mpr (Or.inr (List.mem_cons_self _ _))

/-- A successful lookup result is one of the filtered records. -/
theorem getUpstoxOption_mem {catalog : List Instrument} {a : String}
    {p : Int} {t : String} {r : Instrument}
    (h : getUpstoxOption (some catalog) a p t = some r) :
    r ∈ matchingInstruments catalog a p t := by
  cases hm : matchingInstruments catalog a p t with
  | nil =>
    have hnone : getUpstoxOption (some catalog) a p t = none := by
      simp only [getUpstoxOption, hm]
    rw [hnone] at h
    cases h
  | cons x xs =>
    have hsome : getUpstoxOption (some catalog) a p t =
        some (earliestInstrument x xs) := by
      simp only [getUpstoxOption, hm]
    rw [hsome] at h
    injection h with h
    rw [← h]
    exact earliestInstrument_mem x xs

/-- `find?` over a list whose prefix all fails the predicate returns the
first later element satisfying it. -/
theorem find?_append_first {α : Type} (p : α → Bool) :
    ∀ (l₁ : List α) (r : α) (l₂ : List α),
      (∀ y ∈ l₁, p y = false) → p r = true →
      (l₁ ++ r :: l₂).find? p = some r := by
  intro l₁
  induction l₁ with
  | nil =>
    intro r l₂ _ hr
    rw [List.nil_append]
    exact List.find?_cons_of_pos l₂ hr
  | cons z l₁' ih =>
    intro r l₂ hfalse hr
    rw [List.cons_append, List.find?_cons_of_neg]
    · exact ih r l₂ (fun y hy => hfalse y (List.mem_cons_of_mem z hy)) hr
    · simp [hfalse z (List.mem_cons_self z l₁')]

/-- C1: on a populated catalog the lookup computes exactly the spec's
selection: the record of the filtered set with the minimum expiry,
earliest in catalog order among ties, and `null` when the filtered set
is empty. -/
theorem getUpstoxOption_eq_specSelect (catalog : List Instrument)
    (a : String) (p : Int) (t : String) :
    getUpstoxOption (some catalog) a p t =
      specSelect (matchingInstruments catalog a p t) := by
  cases hm : matchingInstruments catalog a p t with
  | nil => simp [getUpstoxOption, hm, specSelect]
  | cons x xs =>
    have hres : getUpstoxOption (some catalog) a p t =
        some (earliestInstrument x xs) := by
      simp only [getUpstoxOption, hm]
    rw [hres, specSelect]
    obtain ⟨l₁, l₂, hsplit, hstrict⟩ := earliestInstrument_first xs x
    rw [hsplit]
    symm
    apply find?_append_first
    · intro y hy
      have hry := hstrict y hy
      cases hall : (l₁ ++ earliestInstrument x xs :: l₂).all
          (fun z => ! strLt z.expiry y.expiry) with
      | false => rfl
      | true =>
        have hmem : earliestInstrument x xs ∈
            l₁ ++ earliestInstrument x xs :: l₂ :=
          List.mem_append.mpr (Or.inr (List.mem_cons_self _ _))
        have := List.all_eq_true.mp hall _ hmem
        rw [hry] at this
        cases this
    · apply List.all_eq_true.mpr
      intro z hz
      have hz' : z ∈ x :: xs := by rw [hsplit]; exact hz
      have := earliestInstrument_minimal xs x z hz'
      simp [this]

/-- C4: a record is in the lookup's filtered set exactly when it is a
catalog record whose asset symbol matches the query case-insensitively,
whose strike price equals the query exactly, and whose instrument type
matches the query case-insensitively; concretely, a record with
asset symbol "NIFTY" and instrument type "pe" matches a query for
("nifty", strike, "PE"). -/
theorem matchingInstruments_mem_iff (catalog : List Instrument)
    (a : String) (p : Int) (t : String) (inst : Instrument) :
    (inst ∈ matchingInstruments catalog a p t ↔
      inst ∈ catalog ∧
      (∃ s, inst.asset_symbol = some s ∧ jsToUpper s = jsToUpper a) ∧
      inst.strike_price = some p ∧
      (∃ s, inst.instrument_type = some s ∧ jsToUpper s = jsToUpper t)) ∧
    ∀ (p' : Int) (e k : String),
      instrumentMatches
        { asset_symbol := some "NIFTY", strike_price := some p'
          instrument_type := some "pe", expiry := e, instrument_key := k }
        "nifty" p' "PE" = true := by
  constructor
  · rw [matchingInstruments, List.mem_filter]
    apply and_congr_right
    intro _
    cases h1 : inst.asset_symbol with
    | none => simp [instrumentMatches, h1]
    | some s =>
      cases h2 : inst.instrument_type with
      | none => simp [instrumentMatches, h1, h2]
      | some s2 => simp [instrumentMatches, h1, h2, Bool.and_eq_true, beq_iff_eq, and_assoc]
  · intro p' e k
    simp only [instrumentMatches, beq_self_eq_true, Bool.and_eq_true, beq_iff_eq]
    exact ⟨⟨rfl, trivial⟩, rfl⟩

/-- C9: a record whose `asset_symbol` or `instrument_type` field is
absent never passes the filter and is never the lookup's result; the
guarded (optional-chained) access makes the lookup total over records
with missing string fields. -/
theorem getUpstoxOption_skips_missing_fields (catalog : List Instrument)
    (a : String) (p : Int) (t : String) (inst : Instrument)
    (h : inst.asset_symbol = none ∨ inst.instrument_type = none) :
    instrumentMatches inst a p t = false ∧
    getUpstoxOption (some catalog) a p t ≠ some inst := by
  have hfalse : instrumentMatches inst a p t = false := by
    rcases h with h | h
    · simp [instrumentMatches, h]
    · simp [instrumentMatches, h]
  refine ⟨hfalse, fun hres => ?_⟩
  have hmem := getUpstoxOption_mem hres
  rw [matchingInstruments, List.mem_filter] at hmem
  exact absurd hmem.2 (by simp [hfalse])

/-- C9 witness: the theorem applied to the concrete record `c9record`
(absent asset symbol) inside a singleton catalog. -/
theorem getUpstoxOption_skips_missing_fields_witness :
    instrumentMatches c9record "NIFTY" 23300 "PE" = false ∧
    getUpstoxOption (some [c9record]) "NIFTY" 23300 "PE" ≠ some c9record :=
  getUpstoxOption_skips_missing_fields [c9record] "NIFTY" 23300 "PE" c9record
    (Or.inl rfl)

/-- C3: a refresh cycle that fails at any stage (network, decompression,
or parse) leaves the active catalog reference exactly as it was — it is
never replaced by `null` or by partly parsed data — and subsequent
lookups still query the previous catalog unchanged. -/
theorem downloadAndPopulateCache_failure_preserves_cache
    (cache : Option (List Instrument)) (e : RefreshError)
    (a : String) (p : Int) (t : String) :
    downloadAndPopulateCache cache (.err e) = cache ∧
    getUpstoxOption (downloadAndPopulateCache cache (.err e)) a p t =
      getUpstoxOption cache a p t :=
  ⟨rfl, rfl⟩

/-- C6: refresh-cycle errors are local to the refresh attempt in which
they occur: both the startup path (`main`, whose `try`/`catch` swallows
the rejection) and the cron path (whose `.catch` handler swallows it)
return normally with the cache unchanged, so the error never reaches a
lookup caller and lookup results are unaffected. -/
theorem refresh_errors_are_cycle_local
    (cache : Option (List Instrument)) (e : RefreshError)
    (a : String) (p : Int) (t : String) :
    cronStep cache (.err e) = cache ∧
    mainStep cache (.err e) = cache ∧
    getUpstoxOption (cronStep cache (.err e)) a p t = getUpstoxOption cache a p t ∧
    getUpstoxOption (mainStep cache (.err e)) a p t = getUpstoxOption cache a p t := by
  cases cache <;> exact ⟨rfl, rfl, rfl, rfl⟩

/-- C7: for a fixed catalog snapshot the lookup is read-only and
deterministic: a call leaves the module state unchanged, and a second
call with identical arguments on the state left by the first returns an
identical result. -/
theorem getUpstoxOption_readonly_deterministic
    (cache : Option (List Instrument)) (a : String) (p : Int) (t : String) :
    (getUpstoxOptionCall cache a p t).2 = cache ∧
    (getUpstoxOptionCall ((getUpstoxOptionCall cache a p t).2) a p t).1 =
      (getUpstoxOptionCall cache a p t).1 :=
  ⟨rfl, rfl⟩

/-- C8: after a refresh successfully parses the two-record NIFTY 23300 PE
payload (expiries 2025-01-02 and 2025-01-09), the lookup
`getUpstoxOption("NIFTY", 23300, "PE")` returns the record with expiry
2025-01-02, whatever catalog (if any) was active before the refresh and
whatever the records' opaque payloads are. -/
theorem refresh_then_lookup_returns_earliest
    (cache : Option (List Instrument)) (k₁ k₂ : String) :
    getUpstoxOption
      (downloadAndPopulateCache cache (.ok [c8record1 k₁, c8record2 k₂]))
      "NIFTY" 23300 "PE" = some (c8record1 k₁) :=
  rfl

/-- C10: `getTodaysPnL` returns `0` when the positions request throws
(any error message), when the `data` field is absent, and when the
positions list is empty — so the failure result and the no-positions
result are the very same value, and the function returns normally in
all cases. -/
theorem getTodaysPnL_zero_on_failure_and_empty (msg : String) :
    getTodaysPnL (.error msg) = 0 ∧
    getTodaysPnL (.ok none) = 0 ∧
    getTodaysPnL (.ok (some [])) = 0 ∧
    getTodaysPnL (.error msg) = getTodaysPnL (.ok (some [])) :=
  ⟨rfl, rfl, rfl, rfl⟩

/-- C2 counterexample: the claim asserts that for every argument triple
the not-ready return value differs from the populated-no-match return
value; at the triple ("NIFTY", 23300, "PE") with the populated catalog
`[c2record]` (which contains no matching record) both calls return
`null`, so the claim is false. -/
theorem lookup_notReady_equals_noMatch_value :
    getUpstoxOption none "NIFTY" 23300 "PE" =
      getUpstoxOption (some [c2record]) "NIFTY" 23300 "PE" :=
  rfl

/-- C2 (amended): a lookup before any successful refresh and a lookup on
a populated catalog with no matching record both return `null` — the
return value does not distinguish the two cases; the not-ready case is
distinguished only by the `console.error` it emits, which the no-match
case does not. -/
theorem lookup_notReady_vs_noMatch (a : String) (p : Int) (t : String)
    (catalog : List Instrument) (h : matchingInstruments catalog a p t = []) :
    getUpstoxOption none a p t = none ∧
    getUpstoxOption (some catalog) a p t = none ∧
    getUpstoxOption none a p t = getUpstoxOption (some catalog) a p t ∧
    lookupLogsNotReady none = true ∧
    lookupLogsNotReady (some catalog) = false := by
  refine ⟨rfl, ?_, ?_, rfl, rfl⟩ <;> simp [getUpstoxOption, h]

/-- C2 witness: the amended statement instantiated at the concrete
catalog `[c2record]` and the query ("NIFTY", 23300, "PE"). -/
theorem lookup_notReady_vs_noMatch_witness :
    matchingInstruments [c2record] "NIFTY" 23300 "PE" = [] ∧
    (getUpstoxOption none "NIFTY" 23300 "PE" = none ∧
     getUpstoxOption (some [c2record]) "NIFTY" 23300 "PE" = none ∧
     getUpstoxOption none "NIFTY" 23300 "PE" =
       getUpstoxOption (some [c2record]) "NIFTY" 23300 "PE" ∧
     lookupLogsNotReady none = true ∧
     lookupLogsNotReady (some [c2record]) = false) :=
  ⟨rfl, lookup_notReady_vs_noMatch "NIFTY" 23300 "PE" [c2record] rfl⟩

/-- C5 counterexample: the claim asserts that a trigger firing while a
refresh cycle is still in flight is a no-op with no observable state
change; at the concrete state (no cache, one cycle in flight) the
trigger changes the state — it starts a second concurrent download. -/
theorem cronTrigger_not_noop_while_inFlight :
    cronTrigger { cache := none, inFlight := 1 } ≠
      { cache := none, inFlight := 1 } := by
  decide

/-- C5 (amended): the daily trigger unconditionally starts a new refresh
cycle — the source callback has no in-flight guard — so firing it while
a cycle is already running puts a second concurrent download in flight;
the trigger itself leaves the cache untouched. -/
theorem cronTrigger_always_starts_cycle (s : SchedulerState) :
    cronTrigger s = { cache := s.cache, inFlight := s.inFlight + 1 } ∧
    (cronTrigger (cronTrigger s)).inFlight = s.inFlight + 2 :=
  ⟨rfl, rfl⟩
